import Mathlib

/-!
# Verification of the SPSDK fuse-operations module (`spsdk/fuses/fuses.py`)

This file gives a shallow embedding of the fuse-operations module: the
register data model, the lock / write-policy logic of the orchestrator
(`Fuses.read_single`, `Fuses.write_single`, `Fuses.read_all`,
`Fuses.load_config`, `Fuses.get_config`), the two backend operators'
command-text generation (`BlhostFuseOperator`, `NxpeleFuseOperator`) and the
script generator (`FuseScript.generate_script`), together with theorems about
the specified properties.

The register collection type (`FuseRegisters` / `FuseRegister` from
`spsdk/fuses/fuse_registers.py`) is not part of the sources; its operations
(`find_reg`, `get_lock_fuse`, `update_locks`, `load_yml_config`,
`get_config`, value/bitfield accessors) are modelled from the specification
and marked as such in their doc comments.  Python exceptions are embedded as
an error type threaded through `Except`; every operation returns its result
together with the state reached at return/raise time, mirroring in-place
mutation.  Hardware interaction is a `Device` capability (read fuse by index,
write fuse by index/value/lock) plus an operation trace recorded in the
state.  Recursive reads (`read_single` reads a lock fuse by a recursive
call) take a fuel parameter; fuel exhaustion is modelled as the distinct
`recursionError` outcome, mirroring the Python recursion-depth limit.
-/

/-- Fuse individual-write-lock policy (`IndividualWriteLock` of
`fuse_registers.py`): `never` / `always` / `implicit`. -/
inductive IndividualWriteLock
  | never
  | always
  | implicit
deriving DecidableEq, Repr

/-- Access flags and the human-readable description of a fuse register
(modelled from the spec: readable/writable flags + description). -/
structure FuseAccess where
  is_readable : Bool
  is_writable : Bool
  description : String
deriving DecidableEq, Repr

/-- A bitfield owned by a register: name, bit offset, bit width and
description (modelled from the spec). -/
structure FuseBitfield where
  name : String
  offset : Nat
  width : Nat
  description : String
deriving DecidableEq, Repr

/-- A fuse register (modelled from the spec's data model).  Mutable state is
the cached `value` and the two active-lock flags.  `sub_regs` holds the uids
of group-register members; `lock_fuse_uid` designates the lock fuse.  The
masks describe which bits of the lock fuse's value activate this register's
read/write lock (the concrete bitfield decoding of `update_locks` lives in
the external register definition data). -/
structure FuseRegister where
  name : String
  uid : String
  otp_index : Option Nat
  width : Nat
  description : String
  access : FuseAccess
  reset_value : Nat
  individual_write_lock : IndividualWriteLock
  value : Nat
  read_locked : Bool
  write_locked : Bool
  sub_regs : List String
  reverse_subregs_order : Bool
  lock_fuse_uid : Option String
  read_lock_mask : Nat
  write_lock_mask : Nat
  bitfields : List FuseBitfield
deriving DecidableEq, Repr

/-- One hardware operation performed through the backend operator capability
(`read_fuse` / `write_fuse`). -/
inductive HwOp
  | read (index : Nat)
  | write (index : Nat) (value : Nat) (lock : Bool)
deriving DecidableEq, Repr

/-- Embedded exception taxonomy: the concrete exception classes raised by the
code (`SPSDKError`, `SPSDKFuseOperationFailure`, `SPSDKFuseConfigurationError`,
`SPSDKAttributeError`, `SPSDKValueError`, register lookup failure), plus
`recursionError` for Python's recursion-depth limit. -/
inductive FuseError
  | spsdkError (msg : String)
  | fuseOperationFailure (msg : String)
  | fuseConfigurationError (msg : String)
  | attributeError (msg : String)
  | valueError (msg : String)
  | notFound (msg : String)
  | recursionError
deriving DecidableEq, Repr

deriving instance DecidableEq for Except

/-- The mutable state of a `Fuses` orchestrator: the register collection, the
last-touched register list (`fuse_context`, stored as uids) and the trace of
hardware operations performed so far. -/
structure FusesState where
  regs : List FuseRegister
  fuse_context : List String
  trace : List HwOp
deriving DecidableEq, Repr

/-- The device capability behind a backend operator: reading a fuse returns
its value or fails (`none`), writing succeeds or fails according to
`writeOk`. -/
structure Device where
  readFuse : Nat → Option Nat
  writeOk : Nat → Nat → Bool → Bool

/-- The two concrete backend operators. -/
inductive OperatorKind
  | blhost
  | nxpele
deriving DecidableEq, Repr

/-- `NAME` attribute of the concrete operator classes. -/
def opName : OperatorKind → String
  | .blhost => "blhost"
  | .nxpele => "nxpele"

/-- Version string `spsdk_version` interpolated into script headers
(supplied by the package at run time; a constant here). -/
def spsdk_version : String := "2.1"

/-! ## Hexadecimal formatting helpers (Python `%X`, `hex()`, `bytes.hex()`) -/

/-- Uppercase hexadecimal digit. -/
def hexDigitUpper : Nat → Char
  | 0 => '0' | 1 => '1' | 2 => '2' | 3 => '3'
  | 4 => '4' | 5 => '5' | 6 => '6' | 7 => '7'
  | 8 => '8' | 9 => '9' | 10 => 'A' | 11 => 'B'
  | 12 => 'C' | 13 => 'D' | 14 => 'E' | _ => 'F'

/-- Lowercase hexadecimal digit. -/
def hexDigitLower : Nat → Char
  | 0 => '0' | 1 => '1' | 2 => '2' | 3 => '3'
  | 4 => '4' | 5 => '5' | 6 => '6' | 7 => '7'
  | 8 => '8' | 9 => '9' | 10 => 'a' | 11 => 'b'
  | 12 => 'c' | 13 => 'd' | 14 => 'e' | _ => 'f'

/-- Digit accumulation with explicit fuel (structural, so that the kernel can
evaluate it); `fuel ≥ n+1` suffices. -/
def toHexCore (digit : Nat → Char) : Nat → Nat → List Char → List Char
  | 0, _, ds => ds
  | fuel + 1, n, ds =>
    let d := digit (n % 16)
    let n' := n / 16
    if n' = 0 then d :: ds else toHexCore digit fuel n' (d :: ds)

/-- Python `f"{value:X}"`: uppercase hex without prefix, `"0"` for zero. -/
def natToHexUpper (n : Nat) : String :=
  String.mk (toHexCore hexDigitUpper (n + 1) n [])

/-- Python `hex(value)`: `0x`-prefixed lowercase hex. -/
def pyHex (n : Nat) : String :=
  "0x" ++ String.mk (toHexCore hexDigitLower (n + 1) n [])

/-- Fixed-width lowercase hex (used for `bytes.hex()` of a register value). -/
def toHexPadLower : Nat → Nat → List Char
  | 0, _ => []
  | digits + 1, v => toHexPadLower digits (v / 16) ++ [hexDigitLower (v % 16)]

/-- Number of bytes occupied by a bit width. -/
def byteWidth (w : Nat) : Nat := (w + 7) / 8

/-- `FuseRegister.get_bytes_value(raw=True).hex()` (modelled from the spec:
big-endian byte image of the register value, padded to the register's byte
width). -/
def regBytesHex (r : FuseRegister) : String :=
  String.mk (toHexPadLower (2 * byteWidth r.width) r.value)

/-! ## Register collection operations (modelled from the spec where the
implementation lives in `fuse_registers.py`) -/

/-- Modelled from the spec: `FuseRegisters.find_reg` — look a register up by
name or uid in the flat register list (group members included). -/
def findRegList (regs : List FuseRegister) (name : String) : Option FuseRegister :=
  regs.find? (fun r => r.name == name || r.uid == name)

/-- `find_reg` on an orchestrator state. -/
def findRegState (st : FusesState) (name : String) : Option FuseRegister :=
  findRegList st.regs name

/-- Look a register up by uid only (used to resolve `sub_regs` and lock-fuse
references). -/
def findRegByUid (regs : List FuseRegister) (u : String) : Option FuseRegister :=
  regs.find? (fun r => r.uid == u)

/-- Modelled from the spec: `FuseRegisters.get_lock_fuse` — the register
designated as `reg`'s lock fuse, if any. -/
def getLockFuseState (st : FusesState) (r : FuseRegister) : Option FuseRegister :=
  match r.lock_fuse_uid with
  | none => none
  | some u => findRegByUid st.regs u

/-- Update the cached value of the register with uid `u`
(`FuseRegister.set_value`, modelled from the spec; identity fields are
untouched). -/
def setRegValueByUid (st : FusesState) (u : String) (v : Nat) : FusesState :=
  { st with regs := st.regs.map (fun r => if r.uid == u then { r with value := v } else r) }

/-- `FuseRegister.lock(FuseLock.WRITE_LOCK)` on the register with uid `u`
(modelled from the spec: mark the in-memory register write-locked). -/
def lockWriteByUid (st : FusesState) (u : String) : FusesState :=
  { st with regs := st.regs.map (fun r => if r.uid == u then { r with write_locked := true } else r) }

/-- Modelled from the spec: `FuseRegisters.update_locks` — recompute, for
every register with a lock fuse, the active-lock flags from the lock fuse's
current value (here: by the register's lock-bit masks).  Registers without a
lock fuse keep their flags. -/
def update_locks (st : FusesState) : FusesState :=
  { st with regs := st.regs.map (fun r =>
      match r.lock_fuse_uid with
      | none => r
      | some u =>
        match findRegByUid st.regs u with
        | none => r
        | some lf =>
          { r with
            read_locked := lf.value &&& r.read_lock_mask != 0,
            write_locked := lf.value &&& r.write_lock_mask != 0 }) }

/-- Modelled from the spec: `FuseRegister.get_value` over a register list —
a leaf register yields its cached value; a group register concatenates its
members' raw byte values in declared (or reversed) order. -/
def getValueL (regs : List FuseRegister) (r : FuseRegister) : Nat :=
  match r.sub_regs with
  | [] => r.value
  | _ =>
    let uids := if r.reverse_subregs_order then r.sub_regs.reverse else r.sub_regs
    uids.foldl (fun acc u =>
      match findRegByUid regs u with
      | none => acc
      | some m => acc * 2 ^ (8 * byteWidth m.width) + m.value % 2 ^ (8 * byteWidth m.width)) 0

/-- `get_value` on an orchestrator state. -/
def getValueState (st : FusesState) (r : FuseRegister) : Nat :=
  getValueL st.regs r

/-- Modelled from the spec: setting a group register's value distributes the
bytes over its members, inverting the concatenation order. -/
def setGroupValue (st : FusesState) (r : FuseRegister) (v : Nat) : FusesState :=
  let uids := if r.reverse_subregs_order then r.sub_regs.reverse else r.sub_regs
  (uids.reverse.foldl (fun (p : FusesState × Nat) u =>
      match findRegByUid p.1.regs u with
      | none => p
      | some m =>
        let bits := 8 * byteWidth m.width
        (setRegValueByUid p.1 u (p.2 % 2 ^ bits), p.2 / 2 ^ bits)) (st, v)).1

/-- Mask of a bitfield within its register. -/
def bitfieldMask (b : FuseBitfield) : Nat := 2 ^ b.width - 1

/-- Modelled from the spec: `Bitfield.get_value` — the bits
`[offset, offset+width)` of the owning register's value. -/
def getBitfieldValue (r : FuseRegister) (b : FuseBitfield) : Nat :=
  r.value / 2 ^ b.offset % 2 ^ b.width

/-- Modelled from the spec: `Bitfield.set_value` — replace the bits
`[offset, offset+width)` of the owning register's value. -/
def setBitfieldValue (r : FuseRegister) (b : FuseBitfield) (v : Nat) : FuseRegister :=
  { r with value :=
      r.value / 2 ^ (b.offset + b.width) * 2 ^ (b.offset + b.width)
        + v % 2 ^ b.width * 2 ^ b.offset
        + r.value % 2 ^ b.offset }

/-- Modelled from the spec: `Bitfield.get_hex_value`. -/
def getBitfieldHex (r : FuseRegister) (b : FuseBitfield) : String :=
  pyHex (getBitfieldValue r b)

/-! ## Backend operator command text (`BlhostFuseOperator` /
`NxpeleFuseOperator` in `fuses.py`) -/

/-- `BlhostFuseOperator.get_fuse_write_cmd`:
`f"efuse-program-once {index} {f'0x{value:X}'}"`, then the verify flag, then
an optional `lock` suffix. -/
def blhost_get_fuse_write_cmd (index value : Nat) (lock : Bool := false)
    (verify : Bool := false) : String :=
  let ret := "efuse-program-once " ++ toString index ++ " " ++ ("0x" ++ natToHexUpper value)
  let ret := ret ++ " " ++ (if verify then "--verify" else "--no-verify")
  if lock then ret ++ " lock" else ret

/-- `NxpeleFuseOperator.get_fuse_write_cmd`:
`f"write-fuse --index {index} --data {f'0x{value:X}'}"` with an optional
`--lock` suffix; the `verify` parameter only triggers a debug log entry. -/
def nxpele_get_fuse_write_cmd (index value : Nat) (lock : Bool := false)
    (verify : Bool := false) : String :=
  let ret := "write-fuse --index " ++ toString index ++ " --data " ++ ("0x" ++ natToHexUpper value)
  let _ := verify
  if lock then ret ++ " --lock" else ret

/-- Dispatch of the class-level `get_fuse_write_cmd` over the operator kind. -/
def op_get_fuse_write_cmd : OperatorKind → Nat → Nat → Bool → Bool → String
  | .blhost, i, v, l, vf => blhost_get_fuse_write_cmd i v l vf
  | .nxpele, i, v, l, vf => nxpele_get_fuse_write_cmd i v l vf

/-- Per-fuse loop body shared by both `get_fuse_script` class methods:
append one comment plus one write command per fuse; a fuse without an
`otp_index` raises `SPSDKAttributeError` (message kept verbatim, including
the source's typo). -/
def fuse_script_go (cmd : Nat → Nat → String) : List FuseRegister → String → Except FuseError String
  | [], acc => .ok acc
  | f :: fs, acc =>
    match f.otp_index with
    | none => .error (.attributeError ("OTP index is nto defined for fuse " ++ f.name))
    | some i =>
      fuse_script_go cmd fs
        (acc ++ "# Fuse " ++ f.name ++ ", index " ++ toString i ++ " and value: "
          ++ ("0x" ++ regBytesHex f) ++ ".\n"
          ++ cmd i f.value ++ "\n\n")

/-- `BlhostFuseOperator.get_fuse_script`. -/
def blhost_get_fuse_script (family : String) (fuses : List FuseRegister)
    (revision : String := "latest") : Except FuseError String :=
  fuse_script_go (fun i v => blhost_get_fuse_write_cmd i v) fuses
    ("# BLHOST fuses programming script\n"
      ++ "# Generated by SPSDK " ++ spsdk_version ++ "\n"
      ++ "# Chip: " ++ family ++ " rev:" ++ revision ++ "\n\n\n")

/-- `NxpeleFuseOperator.get_fuse_script`. -/
def nxpele_get_fuse_script (family : String) (fuses : List FuseRegister)
    (revision : String := "latest") : Except FuseError String :=
  fuse_script_go (fun i v => nxpele_get_fuse_write_cmd i v) fuses
    ("# NXPELE fuses programming script\n"
      ++ "# Generated by SPSDK " ++ spsdk_version ++ "\n"
      ++ "# Chip: " ++ family ++ " rev:" ++ revision ++ "\n\n\n")

/-! ## Orchestrator (`Fuses` in `fuses.py`)

Every operation returns its Python return value (or raised exception) paired
with the state reached at that point; the fuel argument bounds the recursion
depth of `read_single`. -/

/-- The state reached after a successful hardware read of index `i` caching
value `v` into the register with uid `u`: the read is recorded in the trace,
the value cached, and `update_locks` re-run. -/
def afterHwRead (st : FusesState) (u : String) (i v : Nat) : FusesState :=
  update_locks (setRegValueByUid { st with trace := st.trace ++ [HwOp.read i] } u v)

/-- `Fuses.read_single(name, check_locks=True)`:
resolve the register (fail when unreadable), read a designated lock fuse
first (recursively, skipping the inner lock check when the fuse locks
itself) and fail when the read lock is active, then either read every member
of a group register recursively and return the synthesized value, or read
the fuse from the device, cache the value, re-run `update_locks`, set the
last-touched list and return the value. -/
def read_single (d : Device) : Nat → FusesState → String → Bool → Except FuseError Nat × FusesState
  | 0, st, _, _ => (.error .recursionError, st)
  | fuel + 1, st, name, check_locks =>
    match findRegState st name with
    | none => (.error (.notFound ("Fuse " ++ name ++ " not found")), st)
    | some reg =>
      if reg.access.is_readable = false then
        (.error (.fuseOperationFailure
          ("Unable to read fuse " ++ name ++ ". Fuse access: " ++ reg.access.description)), st)
      else
        let lockPhase : Except (FuseError × FusesState) FusesState :=
          match getLockFuseState st reg with
          | none => .ok st
          | some lock_fuse =>
            if check_locks then
              match read_single d fuel st lock_fuse.uid (lock_fuse.uid != reg.uid) with
              | (.error e, s) => .error (e, s)
              | (.ok _, s) =>
                let rl := match findRegByUid s.regs reg.uid with
                  | some r2 => r2.read_locked
                  | none => reg.read_locked
                if rl then
                  .error (.fuseOperationFailure
                    ("Fuse " ++ reg.name ++ " read operation is locked by lock fuse "
                      ++ lock_fuse.name ++ "."), s)
                else .ok s
            else .ok st
        match lockPhase with
        | .error es => (.error es.1, es.2)
        | .ok st1 =>
          if reg.sub_regs.isEmpty = false then
            let subs := reg.sub_regs.foldl
              (fun (p : Except FuseError Unit × FusesState) u =>
                match p with
                | (.error e, s) => (.error e, s)
                | (.ok _, s) =>
                  match read_single d fuel s u true with
                  | (.ok _, s1) => (.ok (), s1)
                  | (.error e, s1) => (.error e, s1)) (.ok (), st1)
            match subs with
            | (.error e, s) => (.error e, s)
            | (.ok _, s) =>
              let s2 := { s with fuse_context := [reg.uid] }
              (.ok (getValueL s2.regs reg), s2)
          else
            match reg.otp_index with
            | none => (.error (.fuseConfigurationError "OTP index is not defined"), st1)
            | some i =>
              match d.readFuse i with
              | none =>
                (.error (.fuseOperationFailure "Reading of fuse failed."),
                 { st1 with trace := st1.trace ++ [HwOp.read i] })
              | some v =>
                (.ok v, { afterHwRead st1 reg.uid i v with fuse_context := [reg.uid] })

/-- Inner `write_single_reg` of `Fuses.write_single`: per-leaf write with the
lock-fuse check, the not-yet-written pre-check for the `ALWAYS` and
`IMPLICIT` policies, the effective-lock resolution, the backend write and
the in-memory lock update.  `outer_name` is the `name` argument of the
enclosing `write_single` call (used verbatim in the access error message). -/
def write_single_reg (d : Device) (fuel : Nat) (st : FusesState) (outer_name : String)
    (reg : FuseRegister) (lock : Bool) : Except FuseError Unit × FusesState :=
  match reg.otp_index with
  | none => (.error (.spsdkError ("OTP index for fuse " ++ reg.name ++ " is not set.")), st)
  | some otp =>
    if reg.access.is_writable = false then
      (.error (.fuseOperationFailure
        ("Unable to write fuse " ++ outer_name ++ ". Fuse access: "
          ++ reg.access.description)), st)
    else
      let lockPhase : Except (FuseError × FusesState) FusesState :=
        match getLockFuseState st reg with
        | none => .ok st
        | some lock_reg =>
          match read_single d fuel st lock_reg.uid (lock_reg.uid != reg.uid) with
          | (.error e, s) => .error (e, s)
          | (.ok _, s) =>
            let wl := match findRegByUid s.regs reg.uid with
              | some r2 => r2.write_locked
              | none => reg.write_locked
            if wl then
              .error (.fuseOperationFailure
                ("Fuse " ++ reg.name ++ " write operation is locked by lock fuse "
                  ++ lock_reg.name ++ "."), s)
            else .ok s
      match lockPhase with
      | .error es => (.error es.1, es.2)
      | .ok st1 =>
        let policyPhase : Except (FuseError × FusesState) FusesState :=
          if reg.individual_write_lock == .always || reg.individual_write_lock == .implicit then
            match read_single d fuel st1 reg.uid true with
            | (.error e, s) => .error (e, s)
            | (.ok v, s) =>
              if v != reg.reset_value then
                .error (.fuseOperationFailure
                  ("Fuse " ++ reg.name ++ " has non reset value "
                    ++ toString reg.reset_value ++ " and is write-locked."), s)
              else .ok s
          else .ok st1
        match policyPhase with
        | .error es => (.error es.1, es.2)
        | .ok st2 =>
          let lock1 := if lock && reg.individual_write_lock == .implicit then false else lock
          let lock2 := if !lock1 && reg.individual_write_lock == .always then true else lock1
          let wval := match findRegByUid st2.regs reg.uid with
            | some r2 => getValueL st2.regs r2
            | none => getValueL st2.regs reg
          let st3 := { st2 with trace := st2.trace ++ [HwOp.write otp wval lock2] }
          if d.writeOk otp wval lock2 = false then
            (.error (.fuseOperationFailure "Writing of fuse failed."), st3)
          else if lock2 || reg.individual_write_lock == .implicit then
            (.ok (), lockWriteByUid st3 reg.uid)
          else
            (.ok (), st3)

/-- `Fuses.write_single(name, lock=False)`: resolve the register and apply
`write_single_reg` to it, or — for a group register — to each member in
declared order. -/
def write_single (d : Device) (fuel : Nat) (st : FusesState) (name : String)
    (lock : Bool := false) : Except FuseError Unit × FusesState :=
  match findRegState st name with
  | none => (.error (.notFound ("Fuse " ++ name ++ " not found")), st)
  | some reg =>
    if reg.sub_regs.isEmpty then
      write_single_reg d fuel st name reg lock
    else
      reg.sub_regs.foldl (fun (p : Except FuseError Unit × FusesState) u =>
        match p with
        | (.error e, s) => (.error e, s)
        | (.ok _, s) =>
          match findRegByUid s.regs u with
          | none => (.error (.notFound ("Fuse " ++ u ++ " not found")), s)
          | some m => write_single_reg d fuel s name m lock) (.ok (), st)

/-- Loop of `Fuses.read_all`: attempt `read_single` for every uid, appending
the successfully read uids to the context accumulator; a
`SPSDKFuseOperationFailure` is downgraded (the register is skipped), any
other exception aborts the scan. -/
def read_all_go (d : Device) (fuel : Nat) :
    List String → FusesState → List String → Except FuseError Unit × FusesState × List String
  | [], st, ctx => (.ok (), st, ctx)
  | u :: us, st, ctx =>
    match read_single d fuel st u true with
    | (.ok _, st') => read_all_go d fuel us st' (ctx ++ [u])
    | (.error (.fuseOperationFailure _), st') => read_all_go d fuel us st' ctx
    | (.error e, st') => (.error e, st', ctx)

/-- `Fuses.read_all()`: best-effort scan over the whole collection; on
completion the last-touched list becomes the list of successfully read
registers (an uncaught exception leaves it untouched). -/
def read_all (d : Device) (fuel : Nat) (st : FusesState) : Except FuseError Unit × FusesState :=
  match read_all_go d fuel (st.regs.map (fun r => r.uid)) st [] with
  | (.ok _, st', ctx) => (.ok (), { st' with fuse_context := ctx })
  | (.error e, st', _) => (.error e, st')

/-- The sequence of `read_single` results produced while `read_all` scans the
given uids (threading states exactly as the scan does). -/
def readAllOutcomes (d : Device) (fuel : Nat) : List String → FusesState → List (Except FuseError Nat)
  | [], _ => []
  | u :: us, st =>
    let res := read_single d fuel st u true
    res.1 :: readAllOutcomes d fuel us res.2

/-- The uids whose `read_single` succeeds while `read_all` scans the given
uids. -/
def readAllOkUids (d : Device) (fuel : Nat) : List String → FusesState → List String
  | [], _ => []
  | u :: us, st =>
    let res := read_single d fuel st u true
    (match res.1 with
     | .ok _ => [u]
     | .error _ => []) ++ readAllOkUids d fuel us res.2

/-- `True` exactly for a success result. -/
def exceptIsOk : Except FuseError Nat → Bool
  | .ok _ => true
  | .error _ => false

/-- `True` exactly for an `SPSDKFuseOperationFailure` result. -/
def errIsOpFailure : Except FuseError Nat → Bool
  | .error (.fuseOperationFailure _) => true
  | _ => false

/-- `True` exactly for an `SPSDKFuseConfigurationError` result (any payload
type). -/
def resultIsConfigError {α : Type} : Except FuseError α → Bool
  | .error (.fuseConfigurationError _) => true
  | _ => false

/-! ## Configuration load / serialization -/

/-- Modelled from the spec: `FuseRegisters.load_yml_config` — populate
in-memory register values from a register-name → raw-value mapping without
touching hardware (a group register's value is distributed over its
members). -/
def load_yml_config : FusesState → List (String × Nat) → Except FuseError Unit × FusesState
  | st, [] => (.ok (), st)
  | st, (k, v) :: rest =>
    match findRegState st k with
    | none => (.error (.notFound ("Fuse " ++ k ++ " not found")), st)
    | some r =>
      if r.sub_regs.isEmpty then
        load_yml_config (setRegValueByUid st r.uid v) rest
      else
        load_yml_config (setGroupValue st r v) rest

/-- `Fuses.load_config(config)` restricted to its `registers` mapping:
validate that every key names a known register (the schema built from the
register map; modelled from the spec), load the values, then record the
loaded registers as the last-touched list. -/
def load_config (st : FusesState) (registers : List (String × Nat)) :
    Except FuseError Unit × FusesState :=
  if registers.all (fun kv => (findRegState st kv.1).isSome) then
    match load_yml_config st registers with
    | (.ok _, st') =>
      (.ok (), { st' with
        fuse_context := registers.filterMap (fun kv => (findRegState st' kv.1).map (fun r => r.uid)) })
    | (.error e, st') => (.error e, st')
  else
    (.error (.spsdkError "Configuration validation failed"), st)

/-- Modelled from the spec: `FuseRegisters.get_config(diff)` — serialize the
current values back into the register-name → value mapping; with `diff` set,
only registers whose current value differs from the reset value are
included. -/
def regs_get_config (st : FusesState) (diff : Bool) : List (String × Nat) :=
  st.regs.filterMap (fun r =>
    if diff && (getValueL st.regs r == r.reset_value) then none
    else some (r.name, getValueL st.regs r))

/-- The declarative configuration shape produced by `Fuses.get_config`. -/
structure FusesConfig where
  family : String
  revision : String
  registers : List (String × Nat)
deriving DecidableEq, Repr

/-- `Fuses.get_config(diff=False)`. -/
def get_config (family revision : String) (st : FusesState) (diff : Bool := false) : FusesConfig :=
  { family := family, revision := revision, registers := regs_get_config st diff }

/-! ## Script generator (`FuseScript` in `fuses.py`) -/

/-- A per-fuse value specification in the feature database: a literal
(int or bool), a string naming an attribute of the external object, or a
bitfield-name → sub-value mapping. -/
inductive SubVal
  | lit (v : Nat)
  | str (s : String)
deriving DecidableEq, Repr

/-- Top-level per-fuse value specification. -/
inductive FuseVal
  | lit (v : Nat)
  | obj (s : String)
  | fields (bs : List (String × SubVal))
deriving DecidableEq, Repr

/-- The external attributes object: a named attribute either exists with an
integer value or does not exist. -/
def AttrObject : Type := String → Option Nat

/-- Python `str.startswith` on the character lists (evaluable by the
kernel). -/
def pyStartsWith (s p : String) : Bool := p.data.isPrefixOf s.data

/-- Python slicing `s[n:]`. -/
def pyDrop (s : String) (n : Nat) : String := String.mk (s.data.drop n)

/-- `FuseScript.get_object_value(value, attributes_object)`: a value starting
with the `__` marker names an attribute to fetch; anything else — or a
missing attribute — raises `SPSDKValueError`. -/
def get_object_value (value : String) (attrs : AttrObject) : Except FuseError Nat :=
  if pyStartsWith value "__" then
    match attrs (pyDrop value 2) with
    | some v => .ok v
    | none => .error (.valueError ("Fuses: Object does not contain " ++ pyDrop value 2))
  else
    .error (.valueError ("Fuses: Object does not contain " ++ value))

/-- Bitfield loop of `FuseScript.generate_script`: apply each sub-value to
the named bitfield of `r` (a literal directly; a string through the
attributes object, applied only when the resolved value is truthy), building
up the per-bitfield comment text; bitfields already set stay set when a
later sub-value raises. -/
def applyBitfields (attrs : AttrObject) :
    List (String × SubVal) → FuseRegister → String →
    Except FuseError Unit × FuseRegister × String
  | [], r, extra => (.ok (), r, extra)
  | (bk, sv) :: rest, r, extra =>
    match r.bitfields.find? (fun b => b.name == bk) with
    | none => (.error (.notFound ("Bitfield " ++ bk ++ " not found")), r, extra)
    | some b =>
      let next : Except FuseError FuseRegister :=
        match sv with
        | .lit v => .ok (setBitfieldValue r b v)
        | .str s =>
          match get_object_value s attrs with
          | .error e => .error e
          | .ok v => .ok (if v != 0 then setBitfieldValue r b v else r)
      match next with
      | .error e => (.error e, r, extra)
      | .ok r' =>
        applyBitfields attrs rest r'
          (extra ++ "# Bitfield: " ++ b.name ++ ", Description: " ++ b.description
            ++ ", Value: " ++ getBitfieldHex r' b ++ "\n")

/-- Emission of the write command block for one (leaf or member) register in
`FuseScript.generate_script`; fails with `SPSDKError` when the register has
no OTP index. -/
def scriptEmitLeaf (op : OperatorKind) (no_verify : Bool) (m : FuseRegister)
    (script info : String) : Except FuseError (String × String) :=
  match m.otp_index with
  | none => .error (.spsdkError ("OTP index is not defined for " ++ m.name))
  | some i =>
    .ok (script ++ op_get_fuse_write_cmd op i m.value false (!no_verify) ++ "\n",
         info ++ "OTP ID: " ++ toString i ++ ", Value: " ++ pyHex m.value ++ "\n")

/-- Member loop of `FuseScript.generate_script` for a grouped register. -/
def scriptEmitSubs (op : OperatorKind) (no_verify : Bool) (regs : List FuseRegister) :
    List String → String → String → Except FuseError (String × String)
  | [], script, info => .ok (script, info)
  | u :: us, script, info =>
    match findRegByUid regs u with
    | none => .error (.notFound ("Fuse " ++ u ++ " not found"))
    | some m =>
      match scriptEmitLeaf op no_verify m
          (script ++ "# OTP ID: " ++ m.name ++ ", Value: " ++ pyHex m.value ++ "\n") info with
      | .error e => .error e
      | .ok (script', info') => scriptEmitSubs op no_verify regs us script' info'

/-- `FuseScript.generate_file_header()`. -/
def generate_file_header (op : OperatorKind) (scriptName family revision : String) : String :=
  "# " ++ opName op ++ " " ++ scriptName ++ " fuses programming script\n"
    ++ "# Generated by SPSDK " ++ spsdk_version ++ "\n"
    ++ "# Family: " ++ family ++ " Revision: " ++ revision

/-- Per-entry loop of `FuseScript.generate_script`: skip `_`-prefixed keys,
resolve the register, apply the value specification (literal raw value,
bitfield mapping, or attribute-resolved value applied only when truthy),
then append the comment block and write command(s). -/
def generate_script_go (attrs : AttrObject) (op : OperatorKind) (no_verify : Bool) :
    List (String × FuseVal) → List FuseRegister → String → String →
    (Except FuseError Unit × List FuseRegister × String × String)
  | [], regs, script, info => (.ok (), regs, script, info)
  | (key, v) :: rest, regs, script, info =>
    if pyStartsWith key "_" then
      generate_script_go attrs op no_verify rest regs script info
    else
      match findRegList regs key with
      | none => (.error (.notFound ("Fuse " ++ key ++ " not found")), regs, script, info)
      | some reg =>
        let applied : Except FuseError (FuseRegister × String) :=
          match v with
          | .lit n => .ok ({ reg with value := n }, "")
          | .fields bs =>
            match applyBitfields attrs bs reg "" with
            | (.ok _, r', extra) => .ok (r', extra)
            | (.error e, _, _) => .error e
          | .obj s =>
            match get_object_value s attrs with
            | .error e => .error e
            | .ok n => .ok (if n != 0 then { reg with value := n } else reg, "")
        match applied with
        | .error e =>
          (.error e,
           (match v with
            | .fields bs =>
              match applyBitfields attrs bs reg "" with
              | (_, r', _) => regs.map (fun x => if x.uid == reg.uid then r' else x)
            | _ => regs), script, info)
        | .ok (reg', extra) =>
          let regs' := regs.map (fun x => if x.uid == reg'.uid then reg' else x)
          let script1 := script ++ "\n# Value: " ++ pyHex (getValueL regs' reg') ++ "\n"
            ++ "# Description: " ++ reg'.description ++ "\n" ++ extra
            ++ (if extra != "" then
                  "# WARNING! Partially set register, check all bitfields before writing\n"
                else "")
          let emitted : Except FuseError (String × String) :=
            if reg'.sub_regs.isEmpty then
              scriptEmitLeaf op no_verify reg' (script1 ++ "# OTP ID: " ++ reg'.name ++ "\n\n") info
            else
              scriptEmitSubs op no_verify regs' reg'.sub_regs
                (script1 ++ "# Grouped register name: " ++ reg'.name ++ "\n\n")
                (info ++ "\n --== Grouped register name: " ++ reg'.name ++ " ==-- \n")
          match emitted with
          | .error e => (.error e, regs', script, info)
          | .ok (script2, info2) =>
            generate_script_go attrs op no_verify rest regs' script2 info2

/-- `FuseScript.generate_script(attributes_object, info_only=False)`: the
file header plus the per-fuse blocks, or the condensed info text; the final
register list reflects the values set along the way. -/
def generate_script (attrs : AttrObject) (op : OperatorKind) (no_verify : Bool)
    (scriptName family revision : String) (fuses_db : List (String × FuseVal))
    (regs : List FuseRegister) (info_only : Bool := false) :
    Except FuseError String × List FuseRegister :=
  match generate_script_go attrs op no_verify fuses_db regs
      (generate_file_header op scriptName family revision ++ "\n") "" with
  | (.ok _, regs', script, info) => (.ok (if info_only then info else script), regs')
  | (.error e, regs', _, _) => (.error e, regs')

/-! ## Concrete fixtures for witnesses and counterexamples -/

/-- Read/write access. -/
def rwAccess : FuseAccess := { is_readable := true, is_writable := true, description := "RW" }

/-- A leaf register with the `ALWAYS` write-lock policy, no lock fuse,
OTP index 5 and reset value 0. -/
def regAlwaysFix : FuseRegister :=
  { name := "FUSE_A", uid := "fuse_a", otp_index := some 5, width := 32,
    description := "always fuse", access := rwAccess, reset_value := 0,
    individual_write_lock := .always, value := 0, read_locked := false,
    write_locked := false, sub_regs := [], reverse_subregs_order := false,
    lock_fuse_uid := none, read_lock_mask := 0, write_lock_mask := 0, bitfields := [] }

/-- Orchestrator state holding only `regAlwaysFix`. -/
def stAlwaysFix : FusesState := { regs := [regAlwaysFix], fuse_context := [], trace := [] }

/-- A device on which every fuse reads back 7 and every write succeeds. -/
def devSeven : Device := { readFuse := fun _ => some 7, writeOk := fun _ _ _ => true }

/-- A leaf register with the `IMPLICIT` write-lock policy, no lock fuse,
OTP index 6 and reset value 0. -/
def regImplicitFix : FuseRegister :=
  { name := "FUSE_I", uid := "fuse_i", otp_index := some 6, width := 32,
    description := "implicit fuse", access := rwAccess, reset_value := 0,
    individual_write_lock := .implicit, value := 0, read_locked := false,
    write_locked := false, sub_regs := [], reverse_subregs_order := false,
    lock_fuse_uid := none, read_lock_mask := 0, write_lock_mask := 0, bitfields := [] }

/-- Orchestrator state holding only `regImplicitFix`. -/
def stImplicitFix : FusesState := { regs := [regImplicitFix], fuse_context := [], trace := [] }

/-- A device on which every fuse reads back 0 and every write succeeds. -/
def devZero : Device := { readFuse := fun _ => some 0, writeOk := fun _ _ _ => true }

/-- The state reached after the pre-write re-read of `FUSE_I` on `devZero`. -/
def stImplicitAfterRead : FusesState :=
  { regs := [regImplicitFix], fuse_context := ["fuse_i"], trace := [HwOp.read 6] }

/-- A leaf register with no OTP index. -/
def regNoOtpFix : FuseRegister :=
  { name := "FUSE_N", uid := "fuse_n", otp_index := none, width := 32,
    description := "structural fuse", access := rwAccess, reset_value := 0,
    individual_write_lock := .never, value := 0, read_locked := false,
    write_locked := false, sub_regs := [], reverse_subregs_order := false,
    lock_fuse_uid := none, read_lock_mask := 0, write_lock_mask := 0, bitfields := [] }

/-- Orchestrator state holding only `regNoOtpFix`. -/
def stNoOtpFix : FusesState := { regs := [regNoOtpFix], fuse_context := [], trace := [] }

/-- A register that designates itself as its own lock fuse (bit 0 of its
value read-locks it, bit 1 write-locks it). -/
def regSelfLockFix : FuseRegister :=
  { name := "FUSE_S", uid := "fuse_s", otp_index := some 9, width := 32,
    description := "self-locking fuse", access := rwAccess, reset_value := 0,
    individual_write_lock := .never, value := 0, read_locked := false,
    write_locked := false, sub_regs := [], reverse_subregs_order := false,
    lock_fuse_uid := some "fuse_s", read_lock_mask := 1, write_lock_mask := 2,
    bitfields := [] }

/-- Orchestrator state holding only `regSelfLockFix`. -/
def stSelfLockFix : FusesState := { regs := [regSelfLockFix], fuse_context := [], trace := [] }

/-- First of three readable leaf registers. -/
def regScan1 : FuseRegister :=
  { name := "R1", uid := "r1", otp_index := some 1, width := 32,
    description := "scan fuse 1", access := rwAccess, reset_value := 0,
    individual_write_lock := .never, value := 0, read_locked := false,
    write_locked := false, sub_regs := [], reverse_subregs_order := false,
    lock_fuse_uid := none, read_lock_mask := 0, write_lock_mask := 0, bitfields := [] }

/-- Second scan register (its device read will fail). -/
def regScan2 : FuseRegister :=
  { regScan1 with name := "R2", uid := "r2", otp_index := some 2 }

/-- Third scan register. -/
def regScan3 : FuseRegister :=
  { regScan1 with name := "R3", uid := "r3", otp_index := some 3 }

/-- Orchestrator state with the three scan registers. -/
def stScanFix : FusesState :=
  { regs := [regScan1, regScan2, regScan3], fuse_context := [], trace := [] }

/-- A device on which exactly index 2 is unreadable. -/
def devFailIdx2 : Device :=
  { readFuse := fun i => if i = 2 then none else some 4, writeOk := fun _ _ _ => true }

/-- Validation predicate of `load_config` for one configuration entry
(modelled from the generated schema): the key resolves to a register of that
name whose reset value differs from the configured value. -/
def cfgKeyOk (st : FusesState) (kv : String × Nat) : Bool :=
  match findRegState st kv.1 with
  | some r => r.name == kv.1 && kv.2 != r.reset_value
  | none => false

/-- Three leaf registers for configuration round-trip tests. -/
def regCfgA : FuseRegister :=
  { name := "CFG_A", uid := "cfg_a", otp_index := some 11, width := 32,
    description := "cfg fuse A", access := rwAccess, reset_value := 0,
    individual_write_lock := .never, value := 0, read_locked := false,
    write_locked := false, sub_regs := [], reverse_subregs_order := false,
    lock_fuse_uid := none, read_lock_mask := 0, write_lock_mask := 0, bitfields := [] }

/-- Second configuration register. -/
def regCfgB : FuseRegister :=
  { regCfgA with name := "CFG_B", uid := "cfg_b", otp_index := some 12 }

/-- Third configuration register. -/
def regCfgC : FuseRegister :=
  { regCfgA with name := "CFG_C", uid := "cfg_c", otp_index := some 13 }

/-- Reset-state collection with the three configuration registers. -/
def stCfgFix : FusesState :=
  { regs := [regCfgA, regCfgB, regCfgC], fuse_context := [], trace := [] }

/-- A concrete configuration assigning two of the three registers. -/
def cfgFix : List (String × Nat) := [("CFG_A", 5), ("CFG_C", 9)]

/-- The per-register effect of loading a configuration: registers named by a
key take the configured value, others are unchanged. -/
def applyCfg (cfg : List (String × Nat)) (r0 : FuseRegister) : FuseRegister :=
  match cfg.lookup r0.name with
  | some v => { r0 with value := v }
  | none => r0

/-- Validation that a configuration key resolves to a leaf register of the
same name. -/
def cfgKeyResolves (st : FusesState) (kv : String × Nat) : Bool :=
  match findRegState st kv.1 with
  | some r => r.name == kv.1 && r.sub_regs.isEmpty
  | none => false

/-- A writable `NEVER`-policy leaf register. -/
def regNeverFix : FuseRegister :=
  { name := "FUSE_W", uid := "fuse_w", otp_index := some 3, width := 32,
    description := "never-policy fuse", access := rwAccess, reset_value := 0,
    individual_write_lock := .never, value := 17, read_locked := false,
    write_locked := false, sub_regs := [], reverse_subregs_order := false,
    lock_fuse_uid := none, read_lock_mask := 0, write_lock_mask := 0, bitfields := [] }

/-- State holding `regNeverFix` with a stale last-touched list. -/
def stStaleFix : FusesState :=
  { regs := [regNeverFix], fuse_context := ["stale"], trace := [] }

/-- `True` exactly for a successfully generated script. -/
def exceptIsOkStr : Except FuseError String → Bool
  | .ok _ => true
  | .error _ => false

/-- A 4-bit bitfield at offset 4. -/
def bfFix : FuseBitfield := { name := "BF", offset := 4, width := 4, description := "bf" }

/-- A leaf register with one bitfield, used by the script generator. -/
def regScriptFix : FuseRegister :=
  { name := "SREG", uid := "sreg", otp_index := some 20, width := 32,
    description := "script reg", access := rwAccess, reset_value := 0,
    individual_write_lock := .never, value := 171, read_locked := false,
    write_locked := false, sub_regs := [], reverse_subregs_order := false,
    lock_fuse_uid := none, read_lock_mask := 0, write_lock_mask := 0,
    bitfields := [bfFix] }

/-- An attributes object with one falsy and one truthy attribute. -/
def attrsFix : AttrObject :=
  fun n => if n = "zero_attr" then some 0 else if n = "val_attr" then some 3 else none

/-! ## Theorems: helper lemmas, claim theorems, witnesses and
counterexamples -/

/-- Merging a literal space with a literal `0x` prefix across append
associativity. -/
theorem sp_append_0x (x : String) : " " ++ ("0x" ++ x) = " 0x" ++ x := by
  rw [← String.append_assoc]; rfl

/-- Merging the literal ` --data ` with a literal `0x` prefix across append
associativity. -/
theorem data_append_0x (x : String) : " --data " ++ ("0x" ++ x) = " --data 0x" ++ x := by
  rw [← String.append_assoc]; rfl

/-- C8: for every index, value, lock and verify flag, the blhost write
command is exactly `efuse-program-once <index> 0x<VALUE-HEX>` followed by
` --verify` or ` --no-verify` according to the verify flag and a trailing
` lock` iff lock is set; the nxpele command is exactly
`write-fuse --index <index> --data 0x<VALUE-HEX>` with a trailing ` --lock`
iff lock is set, and no verify token is ever emitted (the command does not
depend on the verify flag). -/
theorem write_cmd_text_exact (index value : Nat) (lock verify : Bool) :
    blhost_get_fuse_write_cmd index value lock verify
      = "efuse-program-once " ++ toString index ++ " 0x" ++ natToHexUpper value
        ++ (if verify then " --verify" else " --no-verify")
        ++ (if lock then " lock" else "")
    ∧ nxpele_get_fuse_write_cmd index value lock verify
      = "write-fuse --index " ++ toString index ++ " --data 0x" ++ natToHexUpper value
        ++ (if lock then " --lock" else "")
    ∧ nxpele_get_fuse_write_cmd index value lock true
      = nxpele_get_fuse_write_cmd index value lock false := by
  refine ⟨?_, ?_, ?_⟩ <;>
    cases lock <;> cases verify <;>
      simp [blhost_get_fuse_write_cmd, nxpele_get_fuse_write_cmd, String.append_assoc,
        sp_append_0x, data_append_0x]

/-- C1: for a register whose individual-write-lock policy is `ALWAYS` (here
with no separate lock fuse), when the pre-write re-read of the register
succeeds with a value different from the reset value, `write_single` fails
with `SPSDKFuseOperationFailure`, regardless of the `lock` argument. -/
theorem always_policy_nonreset_write_fails
    (d : Device) (st : FusesState) (name : String) (r : FuseRegister) (i : Nat)
    (fuel : Nat) (lock : Bool) (v : Nat)
    (hfind : findRegState st name = some r)
    (hleaf : r.sub_regs = [])
    (hotp : r.otp_index = some i)
    (hw : r.access.is_writable = true)
    (hlf : getLockFuseState st r = none)
    (hpol : r.individual_write_lock = .always)
    (hread : (read_single d fuel st r.uid true).1 = .ok v)
    (hne : v ≠ r.reset_value) :
    (write_single d fuel st name lock).1
      = .error (.fuseOperationFailure
          ("Fuse " ++ r.name ++ " has non reset value " ++ toString r.reset_value
            ++ " and is write-locked.")) := by
  obtain ⟨st1, hres⟩ : ∃ s, read_single d fuel st r.uid true = (Except.ok v, s) :=
    ⟨(read_single d fuel st r.uid true).2, by rw [← hread]⟩
  unfold write_single
  rw [hfind]
  simp only [hleaf, List.isEmpty_nil, if_true]
  unfold write_single_reg
  rw [hotp, hw, hlf, hpol]
  simp [hres, hne]

/-- C9: a register whose individual-write-lock policy is `IMPLICIT` goes
through the same not-yet-written pre-check as `ALWAYS`: when the pre-write
re-read succeeds with a value different from the reset value, `write_single`
fails with `SPSDKFuseOperationFailure`, on any `lock` argument. -/
theorem implicit_policy_nonreset_write_fails
    (d : Device) (st : FusesState) (name : String) (r : FuseRegister) (i : Nat)
    (fuel : Nat) (lock : Bool) (v : Nat)
    (hfind : findRegState st name = some r)
    (hleaf : r.sub_regs = [])
    (hotp : r.otp_index = some i)
    (hw : r.access.is_writable = true)
    (hlf : getLockFuseState st r = none)
    (hpol : r.individual_write_lock = .implicit)
    (hread : (read_single d fuel st r.uid true).1 = .ok v)
    (hne : v ≠ r.reset_value) :
    (write_single d fuel st name lock).1
      = .error (.fuseOperationFailure
          ("Fuse " ++ r.name ++ " has non reset value " ++ toString r.reset_value
            ++ " and is write-locked.")) := by
  obtain ⟨st1, hres⟩ : ∃ s, read_single d fuel st r.uid true = (Except.ok v, s) :=
    ⟨(read_single d fuel st r.uid true).2, by rw [← hread]⟩
  unfold write_single
  rw [hfind]
  simp only [hleaf, List.isEmpty_nil, if_true]
  unfold write_single_reg
  rw [hotp, hw, hlf, hpol]
  simp [hres, hne]

/-- Looking a register up by uid commutes with a per-register map that
preserves uids. -/
theorem findRegByUid_map_preserve (l : List FuseRegister) (u : String)
    (f : FuseRegister → FuseRegister) (hf : ∀ x, (f x).uid = x.uid) :
    findRegByUid (l.map f) u = (findRegByUid l u).map f := by
  unfold findRegByUid
  have hp : ((fun r : FuseRegister => r.uid == u) ∘ f)
      = (fun r : FuseRegister => r.uid == u) := by
    funext x; simp [hf]
  rw [List.find?_map, hp]

/-- Looking a register up by name-or-uid commutes with a per-register map
that preserves names and uids. -/
theorem findRegList_map_preserve (l : List FuseRegister) (n : String)
    (f : FuseRegister → FuseRegister)
    (hf : ∀ x, (f x).uid = x.uid ∧ (f x).name = x.name) :
    findRegList (l.map f) n = (findRegList l n).map f := by
  unfold findRegList
  have hp : ((fun r : FuseRegister => r.name == n || r.uid == n) ∘ f)
      = (fun r : FuseRegister => r.name == n || r.uid == n) := by
    funext x; simp [(hf x).1, (hf x).2]
  rw [List.find?_map, hp]

/-- A found register satisfies the uid predicate. -/
theorem findRegByUid_uid_eq {l : List FuseRegister} {u : String} {r : FuseRegister}
    (h : findRegByUid l u = some r) : r.uid = u := by
  unfold findRegByUid at h
  have := List.find?_some h
  simpa using this

/-- C2: for a register whose individual-write-lock policy is `IMPLICIT`
(no separate lock fuse, pre-write re-read yielding the reset value, backend
write succeeding with the lock flag off), `write_single` with `lock=true`
behaves exactly like `write_single` with `lock=false`: it does not raise,
the hardware write is performed with the lock flag forced to `false`, and
afterwards the in-memory register is marked write-locked. -/
theorem implicit_policy_write_locks_and_forces_false
    (d : Device) (st st1 : FusesState) (name : String) (r r1 : FuseRegister)
    (i : Nat) (fuel : Nat)
    (hfind : findRegState st name = some r)
    (hleaf : r.sub_regs = [])
    (hotp : r.otp_index = some i)
    (hw : r.access.is_writable = true)
    (hlf : getLockFuseState st r = none)
    (hpol : r.individual_write_lock = .implicit)
    (hread : read_single d fuel st r.uid true = (.ok r.reset_value, st1))
    (hr1 : findRegByUid st1.regs r.uid = some r1)
    (hr1leaf : r1.sub_regs = [])
    (hwok : d.writeOk i r1.value false = true) :
    write_single d fuel st name true = write_single d fuel st name false
    ∧ (write_single d fuel st name false).1 = .ok ()
    ∧ (write_single d fuel st name false).2.trace = st1.trace ++ [HwOp.write i r1.value false]
    ∧ findRegByUid (write_single d fuel st name false).2.regs r.uid
        = some { r1 with write_locked := true } := by
  have huid : r1.uid = r.uid := findRegByUid_uid_eq hr1
  have hrun : ∀ lock : Bool, write_single d fuel st name lock
      = (.ok (), lockWriteByUid { st1 with trace := st1.trace ++ [HwOp.write i r1.value false] } r.uid) := by
    intro lock
    unfold write_single
    rw [hfind]
    simp only [hleaf, List.isEmpty_nil, if_true]
    unfold write_single_reg
    rw [hotp, hw, hlf, hpol]
    cases lock <;>
      simp [hread, hr1, getValueL, hr1leaf, hwok]
  refine ⟨by rw [hrun true, hrun false], by rw [hrun false],
    by rw [hrun false]; simp [lockWriteByUid], ?_⟩
  rw [hrun false]
  show findRegByUid (lockWriteByUid _ r.uid).regs r.uid = _
  unfold lockWriteByUid
  rw [findRegByUid_map_preserve _ _ _ (by intro x; split <;> rfl)]
  rw [hr1]
  simp [huid]

/-- Witness for C1 at a concrete input: the pre-write re-read of `FUSE_A`
returns 7 ≠ 0, and the write fails with the operation-failure message. -/
theorem always_policy_nonreset_write_fails_witness :
    (read_single devSeven 3 stAlwaysFix "fuse_a" true).1 = Except.ok 7
    ∧ (write_single devSeven 3 stAlwaysFix "FUSE_A" true).1
      = Except.error (FuseError.fuseOperationFailure
          ("Fuse " ++ regAlwaysFix.name ++ " has non reset value "
            ++ toString regAlwaysFix.reset_value ++ " and is write-locked.")) :=
  ⟨by decide,
   always_policy_nonreset_write_fails devSeven stAlwaysFix "FUSE_A" regAlwaysFix 5 3 true 7
     (by decide) (by decide) (by decide) (by decide) (by decide) (by decide)
     (by decide) (by decide)⟩

/-- Witness for C9 at a concrete input: `FUSE_I` (policy `IMPLICIT`) reads
back 7 ≠ 0, so writing it fails on the first attempt. -/
theorem implicit_policy_nonreset_write_fails_witness :
    (read_single devSeven 3 stImplicitFix "fuse_i" true).1 = Except.ok 7
    ∧ (write_single devSeven 3 stImplicitFix "FUSE_I" false).1
      = Except.error (FuseError.fuseOperationFailure
          ("Fuse " ++ regImplicitFix.name ++ " has non reset value "
            ++ toString regImplicitFix.reset_value ++ " and is write-locked.")) :=
  ⟨by decide,
   implicit_policy_nonreset_write_fails devSeven stImplicitFix "FUSE_I" regImplicitFix 6 3 false 7
     (by decide) (by decide) (by decide) (by decide) (by decide) (by decide)
     (by decide) (by decide)⟩

/-- Witness for C2 at a concrete input: writing the `IMPLICIT` register
`FUSE_I` with `lock=true` equals writing with `lock=false`, succeeds, issues
the hardware write with the lock flag off, and marks the register
write-locked. -/
theorem implicit_policy_write_locks_and_forces_false_witness :
    write_single devZero 3 stImplicitFix "FUSE_I" true
      = write_single devZero 3 stImplicitFix "FUSE_I" false
    ∧ (write_single devZero 3 stImplicitFix "FUSE_I" false).1 = .ok ()
    ∧ (write_single devZero 3 stImplicitFix "FUSE_I" false).2.trace
      = stImplicitAfterRead.trace ++ [HwOp.write 6 regImplicitFix.value false]
    ∧ findRegByUid (write_single devZero 3 stImplicitFix "FUSE_I" false).2.regs
        regImplicitFix.uid
      = some { regImplicitFix with write_locked := true } :=
  implicit_policy_write_locks_and_forces_false devZero stImplicitFix stImplicitAfterRead
    "FUSE_I" regImplicitFix regImplicitFix 6 3
    (by decide) (by decide) (by decide) (by decide) (by decide) (by decide)
    (by decide) (by decide) (by decide) (by decide)

/-- The script loop fails with `SPSDKAttributeError` as soon as it reaches a
fuse without an OTP index, whatever text was accumulated before. -/
theorem fuse_script_go_error (cmd : Nat → Nat → String) (r : FuseRegister)
    (hotp : r.otp_index = none) :
    ∀ (l1 l2 : List FuseRegister) (acc : String),
      (∀ x ∈ l1, (x.otp_index).isSome) →
      fuse_script_go cmd (l1 ++ r :: l2) acc
        = .error (.attributeError ("OTP index is nto defined for fuse " ++ r.name))
  | [], l2, acc, _ => by simp [fuse_script_go, hotp]
  | x :: l1, l2, acc, h => by
    obtain ⟨i, hi⟩ := Option.isSome_iff_exists.mp (h x (by simp))
    simp only [List.cons_append, fuse_script_go, hi]
    exact fuse_script_go_error cmd r hotp l1 l2 _ (fun y hy => h y (by simp [hy]))

/-- C6 (amended): for a leaf register without a defined `otp_index`,
`write_single` fails — with the base `SPSDKError` class, not the
fuse-configuration error class — and a blhost programming script containing
that register fails to render with `SPSDKAttributeError` (no script text is
produced). -/
theorem missing_otp_write_and_script_fail
    (d : Device) (st : FusesState) (name : String) (r : FuseRegister)
    (fuel : Nat) (lock : Bool) (family revision : String)
    (l1 l2 : List FuseRegister)
    (hfind : findRegState st name = some r)
    (hleaf : r.sub_regs = [])
    (hotp : r.otp_index = none)
    (hl1 : ∀ x ∈ l1, (x.otp_index).isSome) :
    write_single d fuel st name lock
      = (.error (.spsdkError ("OTP index for fuse " ++ r.name ++ " is not set.")), st)
    ∧ blhost_get_fuse_script family (l1 ++ r :: l2) revision
      = .error (.attributeError ("OTP index is nto defined for fuse " ++ r.name)) := by
  constructor
  · unfold write_single
    rw [hfind]
    simp only [hleaf, List.isEmpty_nil, if_true]
    unfold write_single_reg
    rw [hotp]
  · exact fuse_script_go_error _ r hotp l1 l2 _ hl1

/-- Counterexample for C6 as stated: on a register without an OTP index,
`write_single` raises the plain `SPSDKError` class and the blhost script
render raises `SPSDKAttributeError` — neither failure is an
`SPSDKFuseConfigurationError`. -/
theorem missing_otp_error_class_counterexample :
    (write_single devZero 3 stNoOtpFix "FUSE_N" false).1
      = Except.error (FuseError.spsdkError "OTP index for fuse FUSE_N is not set.")
    ∧ resultIsConfigError (write_single devZero 3 stNoOtpFix "FUSE_N" false).1 = false
    ∧ blhost_get_fuse_script "mimxrt595s" [regNoOtpFix] "latest"
      = Except.error (FuseError.attributeError "OTP index is nto defined for fuse FUSE_N")
    ∧ resultIsConfigError (blhost_get_fuse_script "mimxrt595s" [regNoOtpFix] "latest")
      = false := by
  refine ⟨by decide, by decide, ?_, ?_⟩ <;> decide

/-- Witness for the amended C6 at a concrete input. -/
theorem missing_otp_write_and_script_fail_witness :
    write_single devZero 3 stNoOtpFix "FUSE_N" true
      = (.error (.spsdkError ("OTP index for fuse " ++ regNoOtpFix.name ++ " is not set.")),
         stNoOtpFix)
    ∧ blhost_get_fuse_script "mimxrt595s" ([] ++ regNoOtpFix :: []) "latest"
      = .error (.attributeError ("OTP index is nto defined for fuse " ++ regNoOtpFix.name)) :=
  missing_otp_write_and_script_fail devZero stNoOtpFix "FUSE_N" regNoOtpFix 3 true
    "mimxrt595s" "latest" [] [] (by decide) (by decide) (by decide) (by decide)

/-- A leaf read with the lock check disabled makes no recursive call, so its
result does not depend on the remaining fuel (one unit suffices). -/
theorem read_single_nocheck_leaf_fuel_indep
    (d : Device) (st : FusesState) (u : String) (r : FuseRegister)
    (hfind : findRegState st u = some r)
    (hleaf : r.sub_regs = []) (m : Nat) :
    read_single d (m + 1) st u false = read_single d 1 st u false := by
  show read_single d (m + 1) st u false = read_single d (0 + 1) st u false
  simp only [read_single, hfind]
  cases hlf : getLockFuseState st r <;> simp [hleaf]

/-- C5: for a register that is its own lock fuse, `read_single` with
`check_locks=true` terminates — the result is the same for every fuel bound
of at least 2, because the inner read of the lock fuse runs with the lock
check disabled — and succeeds with the value read from the device when the
register is readable and not read-locked after the inner read. -/
theorem selflock_read_terminates
    (d : Device) (st : FusesState) (r r1 : FuseRegister) (i v : Nat)
    (hfind : findRegState st r.uid = some r)
    (hr : r.access.is_readable = true)
    (hself : getLockFuseState st r = some r)
    (hleaf : r.sub_regs = [])
    (hotp : r.otp_index = some i)
    (hdev : d.readFuse i = some v)
    (hr1 : findRegByUid (afterHwRead st r.uid i v).regs r.uid = some r1)
    (hrl : r1.read_locked = false) :
    (∀ n, read_single d (n + 2) st r.uid true = read_single d 2 st r.uid true)
    ∧ (read_single d 2 st r.uid true).1 = .ok v := by
  have hchar : ∀ m, read_single d (m + 2) st r.uid true
      = (.ok v,
         { afterHwRead { afterHwRead st r.uid i v with fuse_context := [r.uid] } r.uid i v with
           fuse_context := [r.uid] }) := by
    intro m
    show read_single d ((m + 1) + 1) st r.uid true = _
    simp only [read_single]
    simp [hfind, hr, hself, hr1, hrl, hleaf, hotp, hdev]
  refine ⟨fun n => ?_, ?_⟩
  · rw [hchar n, show (2 : Nat) = 0 + 2 from rfl, hchar 0]
  · rw [show (2 : Nat) = 0 + 2 from rfl, hchar 0]

/-- Witness for C5 at a concrete input: reading the self-locking fuse with
the lock check on gives the same result at fuel 7 as at fuel 2 and succeeds
with the device value 0. -/
theorem selflock_read_terminates_witness :
    read_single devZero 7 stSelfLockFix "fuse_s" true
      = read_single devZero 2 stSelfLockFix "fuse_s" true
    ∧ (read_single devZero 2 stSelfLockFix "fuse_s" true).1 = .ok 0 :=
  have h := selflock_read_terminates devZero stSelfLockFix regSelfLockFix regSelfLockFix 9 0
    (by decide) (by decide) (by decide) (by decide) (by decide) (by decide)
    (by decide) (by decide)
  ⟨h.1 5, h.2⟩

/-- When every `read_single` result during a scan is either a success or an
`SPSDKFuseOperationFailure`, the scan loop completes and collects exactly
the successful uids after the accumulator. -/
theorem read_all_go_ok (d : Device) (fuel : Nat) :
    ∀ (us : List String) (st : FusesState) (ctx : List String),
      (∀ o ∈ readAllOutcomes d fuel us st, exceptIsOk o || errIsOpFailure o) →
      (read_all_go d fuel us st ctx).1 = .ok ()
      ∧ (read_all_go d fuel us st ctx).2.2 = ctx ++ readAllOkUids d fuel us st
  | [], st, ctx, _ => by simp [read_all_go, readAllOkUids]
  | u :: us, st, ctx, h => by
    have hhead : exceptIsOk (read_single d fuel st u true).1
        || errIsOpFailure (read_single d fuel st u true).1 := by
      refine h _ ?_
      simp [readAllOutcomes]
    have hrest : ∀ o ∈ readAllOutcomes d fuel us (read_single d fuel st u true).2,
        exceptIsOk o || errIsOpFailure o := by
      intro o ho
      exact h o (by simp [readAllOutcomes, ho])
    cases hres : read_single d fuel st u true with
    | mk res1 st1 =>
      rw [hres] at hhead hrest
      cases res1 with
      | ok w =>
        have ih := read_all_go_ok d fuel us st1 (ctx ++ [u]) hrest
        simp only [read_all_go, readAllOkUids, hres]
        simpa using ih
      | error e =>
        cases e <;> simp [exceptIsOk, errIsOpFailure] at hhead
        case fuseOperationFailure msg =>
          have ih := read_all_go_ok d fuel us st1 ctx hrest
          simp only [read_all_go, readAllOkUids, hres]
          simpa using ih

/-- The scan produces one outcome per scanned uid. -/
theorem readAllOutcomes_length (d : Device) (fuel : Nat) :
    ∀ (us : List String) (st : FusesState),
      (readAllOutcomes d fuel us st).length = us.length
  | [], _ => by simp [readAllOutcomes]
  | _ :: us, st => by
    simp [readAllOutcomes, readAllOutcomes_length d fuel us]

/-- The successful uids of a scan are counted by the successful outcomes. -/
theorem readAllOkUids_length (d : Device) (fuel : Nat) :
    ∀ (us : List String) (st : FusesState),
      (readAllOkUids d fuel us st).length
        = (readAllOutcomes d fuel us st).countP exceptIsOk
  | [], _ => by simp [readAllOkUids, readAllOutcomes]
  | u :: us, st => by
    simp only [readAllOkUids, readAllOutcomes, List.countP_cons]
    cases hres : (read_single d fuel st u true).1 <;>
      simp [exceptIsOk, readAllOkUids_length d fuel us, Nat.add_comm]

/-- Success and operation failure are mutually exclusive and — under the
scan hypothesis — jointly exhaustive, so their counts add up to the number
of outcomes. -/
theorem countP_ok_opfail_split :
    ∀ l : List (Except FuseError Nat),
      (∀ o ∈ l, exceptIsOk o || errIsOpFailure o) →
      l.countP exceptIsOk + l.countP errIsOpFailure = l.length
  | [], _ => by simp
  | a :: l, h => by
    have ha := h a (by simp)
    have ih := countP_ok_opfail_split l (fun o ho => h o (by simp [ho]))
    cases a with
    | ok w =>
      simp only [List.countP_cons, exceptIsOk, errIsOpFailure, List.length_cons]
      simp at ih ⊢
      omega
    | error e =>
      cases e
      case fuseOperationFailure msg =>
        simp only [List.countP_cons, List.length_cons]
        simp [exceptIsOk, errIsOpFailure]
        omega
      all_goals simp [exceptIsOk, errIsOpFailure] at ha

/-- C4: when during `read_all` every per-register read either succeeds or
fails with `SPSDKFuseOperationFailure`, and exactly one fails, `read_all`
returns normally and leaves a last-touched list of exactly the N−1
successfully read registers. -/
theorem read_all_partial_failure
    (d : Device) (fuel : Nat) (st : FusesState)
    (houtcomes : ∀ o ∈ readAllOutcomes d fuel (st.regs.map (fun r => r.uid)) st,
        exceptIsOk o || errIsOpFailure o)
    (hone : (readAllOutcomes d fuel (st.regs.map (fun r => r.uid)) st).countP
        errIsOpFailure = 1) :
    (read_all d fuel st).1 = .ok ()
    ∧ (read_all d fuel st).2.fuse_context
        = readAllOkUids d fuel (st.regs.map (fun r => r.uid)) st
    ∧ (read_all d fuel st).2.fuse_context.length = st.regs.length - 1 := by
  have hgo := read_all_go_ok d fuel (st.regs.map (fun r => r.uid)) st [] houtcomes
  have hlen : (readAllOkUids d fuel (st.regs.map (fun r => r.uid)) st).length
      = st.regs.length - 1 := by
    have hsplit := countP_ok_opfail_split _ houtcomes
    have hleno := readAllOutcomes_length d fuel (st.regs.map (fun r => r.uid)) st
    have hoku := readAllOkUids_length d fuel (st.regs.map (fun r => r.uid)) st
    rw [hoku]
    rw [hone] at hsplit
    rw [hleno, List.length_map] at hsplit
    omega
  unfold read_all
  cases hgores : read_all_go d fuel (st.regs.map (fun r => r.uid)) st [] with
  | mk res1 rest =>
    cases rest with
    | mk st1 ctx =>
      rw [hgores] at hgo
      simp only at hgo
      obtain ⟨h1, h2⟩ := hgo
      subst h1
      simp only [List.nil_append] at h2
      subst h2
      exact ⟨rfl, rfl, hlen⟩

/-- Witness for C4 at a concrete input: scanning three registers of which
exactly the second is unreadable returns normally with a last-touched list
of the other two. -/
theorem read_all_partial_failure_witness :
    (read_all devFailIdx2 3 stScanFix).1 = .ok ()
    ∧ (read_all devFailIdx2 3 stScanFix).2.fuse_context
        = readAllOkUids devFailIdx2 3 (stScanFix.regs.map (fun r => r.uid)) stScanFix
    ∧ (read_all devFailIdx2 3 stScanFix).2.fuse_context.length = stScanFix.regs.length - 1 :=
  read_all_partial_failure devFailIdx2 3 stScanFix (by decide) (by decide)

/-- `List.lookup` misses every association list whose keys avoid `k`. -/
theorem lookup_eq_none_of_not_mem_keys :
    ∀ (l : List (String × Nat)) (k : String),
      k ∉ l.map (fun kv => kv.1) → List.lookup k l = none
  | [], _, _ => rfl
  | a :: l, k, h => by
    rw [List.map_cons, List.mem_cons] at h
    push_neg at h
    rw [List.lookup]
    have hbeq : (k == a.1) = false := by
      simp
      exact h.1
    rw [hbeq]
    exact lookup_eq_none_of_not_mem_keys l k h.2

/-- A successful `List.lookup` exhibits a member pair. -/
theorem mem_of_lookup_eq_some :
    ∀ {l : List (String × Nat)} {k : String} {v : Nat},
      List.lookup k l = some v → (k, v) ∈ l
  | a :: l, k, v, h => by
    cases hk : k == a.1 with
    | true =>
      obtain ⟨ka, va⟩ := a
      rw [List.lookup, hk] at h
      simp at h hk
      subst h
      subst hk
      simp
    | false =>
      rw [List.lookup, hk] at h
      exact List.mem_cons_of_mem a (mem_of_lookup_eq_some h)

/-- Characterization of `load_yml_config` on a collection with unique names
and uids: it succeeds and updates exactly the registers named by the
configuration keys to the configured values. -/
theorem load_yml_chars :
    ∀ (cfg : List (String × Nat)) (st : FusesState),
      (st.regs.map (fun r => r.name)).Nodup →
      (st.regs.map (fun r => r.uid)).Nodup →
      (∀ kv ∈ cfg, ∃ r, findRegState st kv.1 = some r ∧ r.name = kv.1 ∧ r.sub_regs = []) →
      (cfg.map (fun kv => kv.1)).Nodup →
      (load_yml_config st cfg).1 = .ok ()
      ∧ (load_yml_config st cfg).2.regs
        = st.regs.map (fun r0 =>
            match cfg.lookup r0.name with
            | some v => { r0 with value := v }
            | none => r0)
  | [], st, _, _, _, _ => by
    simp [load_yml_config, List.lookup]
  | (k, v) :: rest, st, hnames, huids, hres, hkeys => by
    obtain ⟨r, hfr, hrname, hrleaf⟩ := hres (k, v) (by simp)
    have hrname' : r.name = k := hrname
    have hrmem : r ∈ st.regs := List.mem_of_find?_eq_some hfr
    have hleafb : r.sub_regs.isEmpty = true := by simp [hrleaf]
    have hu1uid : ∀ x : FuseRegister,
        (if x.uid == r.uid then { x with value := v } else x).uid = x.uid := by
      intro x; split <;> rfl
    have hu1name : ∀ x : FuseRegister,
        (if x.uid == r.uid then { x with value := v } else x).name = x.name := by
      intro x; split <;> rfl
    have hu1subs : ∀ x : FuseRegister,
        (if x.uid == r.uid then { x with value := v } else x).sub_regs = x.sub_regs := by
      intro x; split <;> rfl
    have hst2 : (setRegValueByUid st r.uid v).regs
        = st.regs.map (fun x => if x.uid == r.uid then { x with value := v } else x) := rfl
    have hnames2 : ((setRegValueByUid st r.uid v).regs.map (fun x => x.name)).Nodup := by
      rw [hst2, List.map_map]
      have hc : ((fun x : FuseRegister => x.name)
          ∘ (fun x => if x.uid == r.uid then { x with value := v } else x))
          = fun x : FuseRegister => x.name := by
        funext x; exact hu1name x
      rw [hc]; exact hnames
    have huids2 : ((setRegValueByUid st r.uid v).regs.map (fun x => x.uid)).Nodup := by
      rw [hst2, List.map_map]
      have hc : ((fun x : FuseRegister => x.uid)
          ∘ (fun x => if x.uid == r.uid then { x with value := v } else x))
          = fun x : FuseRegister => x.uid := by
        funext x; exact hu1uid x
      rw [hc]; exact huids
    have hres2 : ∀ kv ∈ rest, ∃ r2,
        findRegState (setRegValueByUid st r.uid v) kv.1 = some r2
        ∧ r2.name = kv.1 ∧ r2.sub_regs = [] := by
      intro kv hkv
      obtain ⟨r2, hfr2, hn2, hl2⟩ := hres kv (by simp [hkv])
      refine ⟨if r2.uid == r.uid then { r2 with value := v } else r2, ?_, ?_, ?_⟩
      · show findRegList (setRegValueByUid st r.uid v).regs kv.1 = _
        rw [hst2, findRegList_map_preserve st.regs kv.1 _
          (fun x => ⟨hu1uid x, hu1name x⟩)]
        rw [show findRegList st.regs kv.1 = some r2 from hfr2]
        rfl
      · rw [hu1name r2]; exact hn2
      · rw [hu1subs r2]; exact hl2
    have hkeys2 : (rest.map (fun kv => kv.1)).Nodup := by
      rw [List.map_cons] at hkeys
      exact (List.nodup_cons.mp hkeys).2
    have hknotin : k ∉ rest.map (fun kv => kv.1) := by
      rw [List.map_cons] at hkeys
      exact (List.nodup_cons.mp hkeys).1
    have ih := load_yml_chars rest (setRegValueByUid st r.uid v) hnames2 huids2 hres2 hkeys2
    have hstep : load_yml_config st ((k, v) :: rest)
        = load_yml_config (setRegValueByUid st r.uid v) rest := by
      show (match findRegState st k with
        | none => (Except.error (FuseError.notFound ("Fuse " ++ k ++ " not found")), st)
        | some rr =>
          if rr.sub_regs.isEmpty then load_yml_config (setRegValueByUid st rr.uid v) rest
          else load_yml_config (setGroupValue st rr v) rest) = _
      rw [hfr]
      simp [hleafb]
    constructor
    · rw [hstep]; exact ih.1
    · rw [hstep, ih.2, hst2, List.map_map]
      apply List.map_congr_left
      intro r0 hr0
      by_cases hname : r0.name = k
      · have hr0r : r0 = r :=
          List.inj_on_of_nodup_map hnames hr0 hrmem (by rw [hname, hrname'])
        subst hr0r
        have hlook : rest.lookup r0.name = none := by
          rw [hname]; exact lookup_eq_none_of_not_mem_keys rest k hknotin
        have hcons : List.lookup r0.name ((k, v) :: rest) = some v := by
          rw [List.lookup, show (r0.name == k) = true by simp [hname]]
        simp [hcons, hlook]
      · have huidne : r0.uid ≠ r.uid := by
          intro h
          exact hname (by rw [List.inj_on_of_nodup_map huids hr0 hrmem h, hrname'])
        have hcons : List.lookup r0.name ((k, v) :: rest) = rest.lookup r0.name := by
          rw [List.lookup, show (r0.name == k) = false by simp [hname]]
        simp [huidne, hcons]

/-- A leaf register's value does not depend on the rest of the collection. -/
theorem getValueL_leaf (regs : List FuseRegister) (r : FuseRegister)
    (h : r.sub_regs = []) : getValueL regs r = r.value := by
  unfold getValueL
  rw [h]

/-- Unfolding `List.lookup` over a cons cell. -/
theorem lookup_cons_shape (a k : String) (b : Nat) (es : List (String × Nat)) :
    List.lookup a ((k, b) :: es) = if a == k then some b else List.lookup a es := by
  cases h : a == k <;> simp [List.lookup, h]

/-- Looking a key up in the serialized configuration produced from a
collection with unique names: it yields the configured value exactly when
some register carries that name. -/
theorem lookup_config_filterMap (cfg : List (String × Nat)) :
    ∀ (regs : List FuseRegister) (k : String),
      (regs.map (fun r => r.name)).Nodup →
      (regs.filterMap (fun r0 => (cfg.lookup r0.name).map (fun v => (r0.name, v)))).lookup k
        = if regs.any (fun r0 => r0.name == k) then cfg.lookup k else none
  | [], k, _ => by simp
  | r0 :: regs, k, hnd => by
    have hnd2 : (regs.map (fun r => r.name)).Nodup := by
      rw [List.map_cons] at hnd
      exact (List.nodup_cons.mp hnd).2
    have ih := lookup_config_filterMap cfg regs k hnd2
    cases hc : cfg.lookup r0.name with
    | none =>
      have hstep : (r0 :: regs).filterMap
            (fun x => (cfg.lookup x.name).map (fun v => (x.name, v)))
          = regs.filterMap (fun x => (cfg.lookup x.name).map (fun v => (x.name, v))) := by
        rw [List.filterMap_cons, hc]
        rfl
      rw [hstep, ih]
      by_cases hk : r0.name = k
      · subst hk
        rw [hc]
        simp
      · have hany : ((r0 :: regs).any fun x => x.name == k)
            = (regs.any fun x => x.name == k) := by
          simp [List.any_cons, hk]
        rw [hany]
    | some v =>
      have hstep : (r0 :: regs).filterMap
            (fun x => (cfg.lookup x.name).map (fun v => (x.name, v)))
          = (r0.name, v) :: regs.filterMap
              (fun x => (cfg.lookup x.name).map (fun v => (x.name, v))) := by
        rw [List.filterMap_cons, hc]
        rfl
      rw [hstep, lookup_cons_shape]
      by_cases hk : r0.name = k
      · subst hk
        rw [show (r0.name == r0.name) = true by simp,
          show ((r0 :: regs).any fun x => x.name == r0.name) = true by simp]
        simp [hc]
      · rw [show (k == r0.name) = false by
            simp
            exact fun h => hk h.symm]
        have hany : ((r0 :: regs).any fun x => x.name == k)
            = (regs.any fun x => x.name == k) := by
          simp [List.any_cons, hk]
        rw [hany]
        simp [ih]

/-- C7: loading a well-formed configuration (all keys name distinct leaf
registers, all configured values distinct from the reset values, collection
at reset) and serializing back with `diff=true` reproduces the
configuration's registers mapping. -/
theorem load_get_config_roundtrip
    (family revision : String) (st : FusesState) (cfg : List (String × Nat))
    (hsane : st.regs.all (fun r => r.value == r.reset_value && r.sub_regs.isEmpty))
    (hnames : (st.regs.map (fun r => r.name)).Nodup)
    (huids : (st.regs.map (fun r => r.uid)).Nodup)
    (hcfg : cfg.all (cfgKeyOk st))
    (hkeys : (cfg.map (fun kv => kv.1)).Nodup) :
    (load_config st cfg).1 = .ok ()
    ∧ ∀ k, ((get_config family revision (load_config st cfg).2 true).registers).lookup k
        = cfg.lookup k := by
  have hok : ∀ kv ∈ cfg, cfgKeyOk st kv = true := by
    intro kv hkv
    exact List.all_eq_true.mp hcfg kv hkv
  have hres : ∀ kv ∈ cfg, ∃ r, findRegState st kv.1 = some r
      ∧ r.name = kv.1 ∧ r.sub_regs = [] := by
    intro kv hkv
    have h := hok kv hkv
    unfold cfgKeyOk at h
    cases hf : findRegState st kv.1 with
    | none => rw [hf] at h; exact absurd h (by simp)
    | some r =>
      rw [hf] at h
      simp at h
      have hmem : r ∈ st.regs := List.mem_of_find?_eq_some hf
      have hleaf := (List.all_eq_true.mp hsane r hmem)
      simp at hleaf
      exact ⟨r, rfl, h.1, hleaf.2⟩
  have hload := load_yml_chars cfg st hnames huids hres hkeys
  have hvalid : cfg.all (fun kv => (findRegState st kv.1).isSome) = true := by
    rw [List.all_eq_true]
    intro kv hkv
    obtain ⟨r, hf, _, _⟩ := hres kv hkv
    simp [hf]
  cases hly : load_yml_config st cfg with
  | mk res1 st1 =>
    rw [hly] at hload
    simp only at hload
    obtain ⟨h1, hregs⟩ := hload
    subst h1
    have hlc : load_config st cfg
        = (.ok (), { st1 with
            fuse_context := cfg.filterMap
              (fun kv => (findRegState st1 kv.1).map (fun r => r.uid)) }) := by
      unfold load_config
      rw [hvalid, hly]
      simp
    refine ⟨by rw [hlc], ?_⟩
    intro k
    rw [hlc]
    show (regs_get_config { st1 with
        fuse_context := cfg.filterMap
          (fun kv => (findRegState st1 kv.1).map (fun r => r.uid)) } true).lookup k
      = cfg.lookup k
    have hreg2 : ({ st1 with
        fuse_context := cfg.filterMap
          (fun kv => (findRegState st1 kv.1).map (fun r => r.uid)) } : FusesState).regs
        = st1.regs := rfl
    -- the serialized mapping is the configuration restricted to register names
    have hser : regs_get_config { st1 with
        fuse_context := cfg.filterMap
          (fun kv => (findRegState st1 kv.1).map (fun r => r.uid)) } true
        = st.regs.filterMap (fun r0 => (cfg.lookup r0.name).map (fun v => (r0.name, v))) := by
      unfold regs_get_config
      rw [hreg2, hregs, List.filterMap_map]
      apply List.filterMap_congr
      intro r0 hr0
      have hsr0 := List.all_eq_true.mp hsane r0 hr0
      simp only [Bool.and_eq_true, beq_iff_eq, List.isEmpty_iff] at hsr0
      obtain ⟨hval0, hleaf0⟩ := hsr0
      have h1 : ∀ rl, getValueL rl r0 = r0.value :=
        fun rl => getValueL_leaf rl r0 hleaf0
      cases hc : cfg.lookup r0.name with
      | none =>
        simp only [Function.comp_apply, hc]
        simp only [Option.map]
        simp [h1, hval0]
      | some v =>
        have hmemc : (r0.name, v) ∈ cfg := mem_of_lookup_eq_some hc
        have hokv := hok (r0.name, v) hmemc
        unfold cfgKeyOk at hokv
        cases hf : findRegState st r0.name with
        | none => rw [hf] at hokv; exact absurd hokv (by simp)
        | some rf =>
          rw [hf] at hokv
          simp at hokv
          have hrfmem : rf ∈ st.regs := List.mem_of_find?_eq_some hf
          have hrfr0 : rf = r0 :=
            List.inj_on_of_nodup_map hnames hrfmem hr0 (by rw [hokv.1])
          have hvne : v ≠ r0.reset_value := by
            rw [← hrfr0]; exact hokv.2
          have h2 : ∀ rl, getValueL rl ({ r0 with value := v } : FuseRegister) = v :=
            fun rl => getValueL_leaf rl _ hleaf0
          simp only [Function.comp_apply, hc]
          simp only [Option.map]
          simp [h2, hvne]
    rw [hser, lookup_config_filterMap cfg st.regs k hnames]
    by_cases hany : st.regs.any (fun r0 => r0.name == k) = true
    · rw [if_pos hany]
    · rw [if_neg hany]
      cases hl : cfg.lookup k with
      | none => rfl
      | some v =>
        exfalso
        have hmemc : (k, v) ∈ cfg := mem_of_lookup_eq_some hl
        obtain ⟨r, hf, hn, _⟩ := hres (k, v) hmemc
        have hrmem : r ∈ st.regs := List.mem_of_find?_eq_some hf
        exact hany (by
          rw [List.any_eq_true]
          exact ⟨r, hrmem, by simp [hn]⟩)

/-- Witness for C7 at a concrete input: loading `cfgFix` and serializing
with `diff=true` reproduces the configuration lookup on present keys and on
an absent key. -/
theorem load_get_config_roundtrip_witness :
    (load_config stCfgFix cfgFix).1 = .ok ()
    ∧ ((get_config "mimxrt595s" "latest" (load_config stCfgFix cfgFix).2 true).registers).lookup
        "CFG_A" = cfgFix.lookup "CFG_A"
    ∧ ((get_config "mimxrt595s" "latest" (load_config stCfgFix cfgFix).2 true).registers).lookup
        "CFG_B" = cfgFix.lookup "CFG_B"
    ∧ ((get_config "mimxrt595s" "latest" (load_config stCfgFix cfgFix).2 true).registers).lookup
        "CFG_X" = cfgFix.lookup "CFG_X" :=
  have h := load_get_config_roundtrip "mimxrt595s" "latest" stCfgFix cfgFix
    (by decide) (by decide) (by decide) (by decide) (by decide)
  ⟨h.1, h.2 "CFG_A", h.2 "CFG_B", h.2 "CFG_X"⟩

/-- Characterization of a successful leaf read with no lock fuse: the value
is cached, locks are recomputed, and the last-touched list becomes exactly
the register read. -/
theorem read_single_leaf_eq
    (d : Device) (st : FusesState) (name : String) (r : FuseRegister) (i v : Nat)
    (fuel : Nat) (check : Bool)
    (hfind : findRegState st name = some r)
    (hr : r.access.is_readable = true)
    (hlf : getLockFuseState st r = none)
    (hleaf : r.sub_regs = [])
    (hotp : r.otp_index = some i)
    (hdev : d.readFuse i = some v) :
    read_single d (fuel + 1) st name check
      = (.ok v, { afterHwRead st r.uid i v with fuse_context := [r.uid] }) := by
  show read_single d (fuel + 1) st name check = _
  simp only [read_single]
  rw [hfind]
  simp [hr, hlf, hleaf, hotp, hdev]

/-- A successful `write_single` of a `NEVER`-policy register without a lock
fuse performs no internal read and leaves `fuse_context` untouched. -/
theorem write_single_never_context_unchanged
    (d : Device) (st : FusesState) (name : String) (r : FuseRegister) (i : Nat)
    (fuel : Nat) (lock : Bool)
    (hfind : findRegState st name = some r)
    (hleaf : r.sub_regs = [])
    (hotp : r.otp_index = some i)
    (hw : r.access.is_writable = true)
    (hlf : getLockFuseState st r = none)
    (hpol : r.individual_write_lock = .never)
    (hruid : findRegByUid st.regs r.uid = some r)
    (hwok : d.writeOk i r.value lock = true) :
    (write_single d fuel st name lock).1 = .ok ()
    ∧ (write_single d fuel st name lock).2.fuse_context = st.fuse_context := by
  have hgv : getValueL st.regs r = r.value := getValueL_leaf st.regs r hleaf
  unfold write_single
  rw [hfind]
  simp only [hleaf, List.isEmpty_nil, if_true]
  unfold write_single_reg
  rw [hotp, hw, hlf, hpol]
  cases lock <;> simp [hruid, hgv, hwok, lockWriteByUid] at hwok ⊢

/-- C3 (amended): a successful `read_single` and a successful `load_config`
overwrite the last-touched register list with exactly the registers they
touch, but `write_single` does not update the list itself: after a
successful write of a `NEVER`-policy register without a lock fuse (where no
internal read happens) the list is unchanged. -/
theorem touched_list_semantics
    (d : Device)
    (stR : FusesState) (nameR : String) (rR : FuseRegister) (iR vR fuelR : Nat) (check : Bool)
    (hfindR : findRegState stR nameR = some rR)
    (hrR : rR.access.is_readable = true)
    (hlfR : getLockFuseState stR rR = none)
    (hleafR : rR.sub_regs = [])
    (hotpR : rR.otp_index = some iR)
    (hdevR : d.readFuse iR = some vR)
    (stW : FusesState) (nameW : String) (rW : FuseRegister) (iW fuelW : Nat) (lockW : Bool)
    (hfindW : findRegState stW nameW = some rW)
    (hleafW : rW.sub_regs = [])
    (hotpW : rW.otp_index = some iW)
    (hwW : rW.access.is_writable = true)
    (hlfW : getLockFuseState stW rW = none)
    (hpolW : rW.individual_write_lock = .never)
    (hruidW : findRegByUid stW.regs rW.uid = some rW)
    (hwokW : d.writeOk iW rW.value lockW = true)
    (stL : FusesState) (cfg : List (String × Nat))
    (hnamesL : (stL.regs.map (fun r => r.name)).Nodup)
    (huidsL : (stL.regs.map (fun r => r.uid)).Nodup)
    (hcfgL : cfg.all (cfgKeyResolves stL))
    (hkeysL : (cfg.map (fun kv => kv.1)).Nodup) :
    (read_single d (fuelR + 1) stR nameR check).2.fuse_context = [rR.uid]
    ∧ (write_single d fuelW stW nameW lockW).1 = .ok ()
    ∧ (write_single d fuelW stW nameW lockW).2.fuse_context = stW.fuse_context
    ∧ (load_config stL cfg).1 = .ok ()
    ∧ (load_config stL cfg).2.fuse_context
        = cfg.filterMap (fun kv => (findRegState stL kv.1).map (fun r => r.uid)) := by
  have hwrite := write_single_never_context_unchanged d stW nameW rW iW fuelW lockW
    hfindW hleafW hotpW hwW hlfW hpolW hruidW hwokW
  have hread := read_single_leaf_eq d stR nameR rR iR vR fuelR check
    hfindR hrR hlfR hleafR hotpR hdevR
  have hres : ∀ kv ∈ cfg, ∃ r, findRegState stL kv.1 = some r
      ∧ r.name = kv.1 ∧ r.sub_regs = [] := by
    intro kv hkv
    have h := List.all_eq_true.mp hcfgL kv hkv
    unfold cfgKeyResolves at h
    cases hf : findRegState stL kv.1 with
    | none => rw [hf] at h; exact absurd h (by simp)
    | some r =>
      rw [hf] at h
      simp at h
      exact ⟨r, rfl, h.1, by simpa using h.2⟩
  have hload := load_yml_chars cfg stL hnamesL huidsL hres hkeysL
  have hvalid : cfg.all (fun kv => (findRegState stL kv.1).isSome) = true := by
    rw [List.all_eq_true]
    intro kv hkv
    obtain ⟨r, hf, _, _⟩ := hres kv hkv
    simp [hf]
  refine ⟨by rw [hread], hwrite.1, hwrite.2, ?_, ?_⟩
  · unfold load_config
    rw [hvalid]
    cases hly : load_yml_config stL cfg with
    | mk res1 st1 =>
      rw [hly] at hload
      obtain ⟨h1, _⟩ := hload
      simp only at h1
      subst h1
      simp
  · unfold load_config
    rw [hvalid]
    cases hly : load_yml_config stL cfg with
    | mk res1 st1 =>
      rw [hly] at hload
      obtain ⟨h1, hregs⟩ := hload
      simp only at h1
      subst h1
      simp only [if_true]
      show cfg.filterMap (fun kv => (findRegState st1 kv.1).map (fun r => r.uid)) = _
      have hregs2 : st1.regs = stL.regs.map (applyCfg cfg) := hregs
      apply List.filterMap_congr
      intro kv _
      have hFuid : ∀ x : FuseRegister, (applyCfg cfg x).uid = x.uid := by
        intro x
        cases hcase : cfg.lookup x.name <;> simp [applyCfg, hcase]
      have hFname : ∀ x : FuseRegister, (applyCfg cfg x).name = x.name := by
        intro x
        cases hcase : cfg.lookup x.name <;> simp [applyCfg, hcase]
      have hfind1 : findRegState st1 kv.1
          = (findRegState stL kv.1).map (applyCfg cfg) := by
        show findRegList st1.regs kv.1 = _
        rw [hregs2]
        exact findRegList_map_preserve stL.regs kv.1 _ (fun x => ⟨hFuid x, hFname x⟩)
      rw [hfind1]
      cases hf : findRegState stL kv.1 with
      | none => simp
      | some r => simp [hFuid r]

/-- Counterexample for C3 as stated: a successful `write_single` of a
`NEVER`-policy register leaves the last-touched list at its previous (stale)
value instead of overwriting it with the written register. -/
theorem write_touched_list_counterexample :
    (write_single devZero 3 stStaleFix "FUSE_W" true).1 = .ok ()
    ∧ (write_single devZero 3 stStaleFix "FUSE_W" true).2.fuse_context = ["stale"]
    ∧ (["stale"] : List String) ≠ [regNeverFix.uid] := by
  refine ⟨by decide, by decide, by decide⟩

/-- Witness for the amended C3 at concrete inputs: a read sets the list to
the register read, the `NEVER`-policy write leaves the stale list in place,
and a configuration load sets the list to the loaded registers. -/
theorem touched_list_semantics_witness :
    (read_single devZero 3 stAlwaysFix "FUSE_A" true).2.fuse_context = [regAlwaysFix.uid]
    ∧ (write_single devZero 3 stStaleFix "FUSE_W" false).1 = .ok ()
    ∧ (write_single devZero 3 stStaleFix "FUSE_W" false).2.fuse_context
        = stStaleFix.fuse_context
    ∧ (load_config stCfgFix cfgFix).1 = .ok ()
    ∧ (load_config stCfgFix cfgFix).2.fuse_context
        = cfgFix.filterMap (fun kv => (findRegState stCfgFix kv.1).map (fun r => r.uid)) :=
  touched_list_semantics devZero
    stAlwaysFix "FUSE_A" regAlwaysFix 5 0 2 true
    (by decide) (by decide) (by decide) (by decide) (by decide) (by decide)
    stStaleFix "FUSE_W" regNeverFix 3 3 false
    (by decide) (by decide) (by decide) (by decide) (by decide) (by decide)
    (by decide) (by decide)
    stCfgFix cfgFix
    (by decide) (by decide) (by decide) (by decide)

/-- `setBitfieldValue` only changes the cached value. -/
theorem setBitfieldValue_sub_regs (r : FuseRegister) (b : FuseBitfield) (v : Nat) :
    (setBitfieldValue r b v).sub_regs = r.sub_regs := rfl

/-- `setBitfieldValue` keeps the OTP index. -/
theorem setBitfieldValue_otp (r : FuseRegister) (b : FuseBitfield) (v : Nat) :
    (setBitfieldValue r b v).otp_index = r.otp_index := rfl

/-- `setBitfieldValue` keeps the uid. -/
theorem setBitfieldValue_uid (r : FuseRegister) (b : FuseBitfield) (v : Nat) :
    (setBitfieldValue r b v).uid = r.uid := rfl

/-- C10: in `generate_script`, a register-level string value or a bitfield
sub-value that resolves through the attributes object is applied exactly
when the resolved value is truthy: a falsy (zero) resolution leaves the
register or bitfield at its previous value, and generation still succeeds
with no error; a truthy resolution is applied normally. -/
theorem falsy_attribute_value_not_applied
    (attrs : AttrObject) (op : OperatorKind) (nv : Bool)
    (k s : String) (regs : List FuseRegister) (r : FuseRegister) (i v : Nat)
    (hk : pyStartsWith k "_" = false)
    (hfind : findRegList regs k = some r)
    (hleaf : r.sub_regs = [])
    (hotp : r.otp_index = some i)
    (hs : pyStartsWith s "__" = true)
    (hattr : attrs (pyDrop s 2) = some v)
    (k2 bk s2 : String) (regs2 : List FuseRegister) (r2 : FuseRegister)
    (b : FuseBitfield) (i2 v2 : Nat)
    (hk2 : pyStartsWith k2 "_" = false)
    (hfind2 : findRegList regs2 k2 = some r2)
    (hleaf2 : r2.sub_regs = [])
    (hotp2 : r2.otp_index = some i2)
    (hb : r2.bitfields.find? (fun x => x.name == bk) = some b)
    (hs2 : pyStartsWith s2 "__" = true)
    (hattr2 : attrs (pyDrop s2 2) = some v2) :
    (∀ sn fam rev,
      exceptIsOkStr (generate_script attrs op nv sn fam rev [(k, FuseVal.obj s)] regs false).1
        = true
      ∧ (generate_script attrs op nv sn fam rev [(k, FuseVal.obj s)] regs false).2
        = regs.map (fun x => if x.uid == r.uid
            then (if v != 0 then { r with value := v } else r) else x))
    ∧ (∀ sn fam rev,
      exceptIsOkStr (generate_script attrs op nv sn fam rev
          [(k2, FuseVal.fields [(bk, SubVal.str s2)])] regs2 false).1 = true
      ∧ (generate_script attrs op nv sn fam rev
          [(k2, FuseVal.fields [(bk, SubVal.str s2)])] regs2 false).2
        = regs2.map (fun x => if x.uid == r2.uid
            then (if v2 != 0 then setBitfieldValue r2 b v2 else r2) else x)) := by
  constructor
  · intro sn fam rev
    by_cases hv : v = 0
    · subst hv
      constructor <;>
        simp [generate_script, generate_script_go, hk, hfind, get_object_value, hs,
          hattr, hleaf, hotp, scriptEmitLeaf, exceptIsOkStr]
    · have hvne : (v != 0) = true := by simp [hv]
      constructor <;>
        simp [generate_script, generate_script_go, hk, hfind, get_object_value, hs,
          hattr, hleaf, hotp, scriptEmitLeaf, exceptIsOkStr, hvne, hv]
  · intro sn fam rev
    by_cases hv : v2 = 0
    · subst hv
      constructor <;>
        simp [generate_script, generate_script_go, hk2, hfind2, get_object_value, hs2,
          hattr2, hleaf2, hotp2, hb, applyBitfields, scriptEmitLeaf, exceptIsOkStr]
    · have hvne : (v2 != 0) = true := by simp [hv]
      constructor <;>
        simp [generate_script, generate_script_go, hk2, hfind2, get_object_value, hs2,
          hattr2, hleaf2, hotp2, hb, applyBitfields, scriptEmitLeaf, exceptIsOkStr,
          hvne, hv, setBitfieldValue_sub_regs, setBitfieldValue_otp, setBitfieldValue_uid]

/-- Witness for C10 at concrete inputs: a register value resolving to the
falsy attribute 0 is skipped (value unchanged, generation succeeds), and a
bitfield sub-value resolving to the truthy attribute 3 is applied. -/
theorem falsy_attribute_value_not_applied_witness :
    (exceptIsOkStr (generate_script attrsFix .blhost false "FS" "fam" "latest"
        [("SREG", FuseVal.obj "__zero_attr")] [regScriptFix] false).1 = true
      ∧ (generate_script attrsFix .blhost false "FS" "fam" "latest"
          [("SREG", FuseVal.obj "__zero_attr")] [regScriptFix] false).2
        = [regScriptFix].map (fun x => if x.uid == regScriptFix.uid
            then (if (0 : Nat) != 0 then { regScriptFix with value := 0 }
                  else regScriptFix) else x))
    ∧ (exceptIsOkStr (generate_script attrsFix .blhost false "FS" "fam" "latest"
        [("SREG", FuseVal.fields [("BF", SubVal.str "__val_attr")])] [regScriptFix] false).1
        = true
      ∧ (generate_script attrsFix .blhost false "FS" "fam" "latest"
          [("SREG", FuseVal.fields [("BF", SubVal.str "__val_attr")])] [regScriptFix] false).2
        = [regScriptFix].map (fun x => if x.uid == regScriptFix.uid
            then (if (3 : Nat) != 0 then setBitfieldValue regScriptFix bfFix 3
                  else regScriptFix) else x)) :=
  have h := falsy_attribute_value_not_applied attrsFix .blhost false
    "SREG" "__zero_attr" [regScriptFix] regScriptFix 20 0
    (by decide) (by decide) (by decide) (by decide) (by decide) (by decide)
    "SREG" "BF" "__val_attr" [regScriptFix] regScriptFix bfFix 20 3
    (by decide) (by decide) (by decide) (by decide) (by decide) (by decide) (by decide)
  ⟨h.1 "FS" "fam" "latest", h.2 "FS" "fam" "latest"⟩
